import Mathlib

/-!
# libMSDF — verification of the glyph-to-distance-field pipeline

Shallow embedding of the repository's core (`src/wasm/core.h`), the WASM
binding layer (`src/wasm/wasm_binding.cpp`) and the public TypeScript wrapper
(`src/msdf-generator.ts`).  C++ `double` arithmetic is modelled exactly over
`ℚ`; machine `int` values produced by `(int)ceil(..)` are modelled as `ℤ`
ceilings.  External collaborators (FreeType and Chlumsky's msdfgen, which are
vendored outside `src/`) are modelled as an abstract deterministic
environment `Env`; the parts of their behaviour that the specification pins
down are modelled from the spec and marked as such in their doc comments.
-/

namespace LibMSDF

/-- A rectangle `(l, b, r, t)`: left, bottom, right, top. -/
structure Bounds where
  l : ℚ
  b : ℚ
  r : ℚ
  t : ℚ
  deriving DecidableEq

/-- A glyph outline shape, abstracted to what the pipeline reads from it:
`bound` is the result of `shape.bound(l, b, r, t)` (for an outline with no
edges the sentinel initial values are never updated, which shows up here as a
degenerate rectangle with `l ≥ r` or `b ≥ t`).  `id` distinguishes distinct
outlines. -/
structure Shape where
  id : ℕ
  bound : Bounds
  deriving DecidableEq

/-- Modelled from the spec: msdfgen's `Projection` (vendored outside `src/`),
"a uniform scale factor ... and a 2D translation that maps glyph design-space
coordinates to pixel-space bitmap coordinates". -/
structure Projection where
  scaling : ℚ × ℚ
  translate : ℚ × ℚ
  deriving DecidableEq

/-- Modelled from the spec: msdfgen projects a design-space point by first
translating and then scaling it into pixel space. -/
def Projection.project (p : Projection) (v : ℚ × ℚ) : ℚ × ℚ :=
  (p.scaling.1 * (v.1 + p.translate.1), p.scaling.2 * (v.2 + p.translate.2))

/-- `struct VariationAxis` of `core.h`: 4-letter tag plus value. -/
structure VariationAxis where
  tag : String
  value : ℚ
  deriving DecidableEq

/-- A font as decoded by `msdfgen::loadFontData`, abstracted to the queries
the core performs on it.  `outline` and `advance` depend on the design-space
coordinates set by successful `setFontVariationAxis` calls (a list of
axis-name/value pairs); the character map (`glyphIndexOk`, `glyphIndex`),
outline decodability and em size do not vary with the instance coordinates.
`setAxisOk` tells whether `msdfgen::setFontVariationAxis` succeeds for a
given axis name and value, and `nameTableAxis` is the font's own axis name
table (used only to state claims about custom axis tags). -/
structure FontSpec where
  glyphIndexOk : ℕ → Bool
  glyphIndex : ℕ → ℕ
  outlineOk : ℕ → Bool
  emSize : ℚ
  setAxisOk : String → ℚ → Bool
  nameTableAxis : String → Option String
  outline : List (String × ℚ) → ℕ → Shape
  advance : List (String × ℚ) → ℕ → ℚ

/-- The deterministic external environment: FreeType initialization, font
decoding, and msdfgen's shape processing and rasterization.  All external
calls the C++ core makes are functions of their arguments — the libraries
hold no hidden mutable state across the calls the core performs. -/
structure Env where
  ftInitOk : Bool
  decode : List ℕ → Option FontSpec
  normalize : Shape → Shape
  edgeColoringSimple : Shape → ℚ → Shape
  msdfSample : Shape → Projection → ℚ → ℕ → ℕ → ℚ × ℚ × ℚ
  mtsdfSample : Shape → Projection → ℚ → ℕ → ℕ → ℚ × ℚ × ℚ × ℚ

namespace msdf_core

/-- `tagToName` of `core.h` lines 20–28: maps the five standard OpenType
axis tags to full names; every other tag yields `nullptr` (the font's own
axis name table is not consulted — see the TODO in the source). -/
def tagToName (tag : String) : Option String :=
  if tag = "wght" then some "Weight"
  else if tag = "wdth" then some "Width"
  else if tag = "opsz" then some "Optical Size"
  else if tag = "ital" then some "Italic"
  else if tag = "slnt" then some "Slant"
  else none

/-- `applyVariationAxes` of `core.h` lines 32–44.  The C++ function mutates
the font's active instance through `setFontVariationAxis` and returns the
success count; here the mutation is made explicit as the list of
axis-name/value pairs successfully applied, returned alongside the count. -/
def applyVariationAxes (font : FontSpec) (axes : List VariationAxis) :
    ℕ × List (String × ℚ) :=
  axes.foldl
    (fun acc a =>
      match tagToName a.tag with
      | some name =>
          if font.setAxisOk name a.value then (acc.1 + 1, acc.2 ++ [(name, a.value)])
          else acc
      | none => acc)
    (0, [])

/-- Modelled from the spec: `msdfgen::loadGlyph` (Outline Source Adapter,
vendored outside `src/`).  Per §4.2: "resolves the codepoint to a glyph
index (failing this lookup — index 0 — is a distinct glyph-not-present
outcome) ... Fails (no Shape produced) if font parsing fails, the glyph
index is invalid, or outline decomposition fails for a malformed glyph
table."  `coords` are the design-space coordinates currently applied. -/
def loadGlyph (font : FontSpec) (coords : List (String × ℚ)) (charCode : ℕ) :
    Option (Shape × ℚ) :=
  if font.glyphIndexOk charCode && font.glyphIndex charCode != 0
      && font.outlineOk charCode then
    some (font.outline coords charCode, font.advance coords charCode)
  else none

/-- `hasGlyph` of `core.h` lines 51–68: initialize FreeType, load the font,
and report whether `getGlyphIndex` succeeds with a nonzero index. -/
def hasGlyph (env : Env) (fontBytes : List ℕ) (charCode : ℕ) : Bool :=
  if env.ftInitOk = false then false
  else
    match env.decode fontBytes with
    | none => false
    | some font => font.glyphIndexOk charCode && font.glyphIndex charCode != 0

/-- `struct GlyphResult` of `core.h` lines 74–83. -/
structure GlyphResult where
  success : Bool
  width : ℤ
  height : ℤ
  channels : ℕ
  advance : ℚ
  planeBounds : Bounds
  atlasBounds : Bounds
  pixels : List ℚ
  deriving DecidableEq

/-- The failure result the core returns on any early exit: `success` is
false and the remaining fields are never read by callers. -/
def emptyResult (channels : ℕ) : GlyphResult :=
  { success := false, width := 0, height := 0, channels := channels,
    advance := 0, planeBounds := ⟨0, 0, 0, 0⟩, atlasBounds := ⟨0, 0, 0, 0⟩,
    pixels := [] }

/-- The empty-shape fixup of `core.h` lines 122–125: degenerate bounds are
replaced by the canonical unit box `(0, 0, 1, 1)`. -/
def fixBounds (bd : Bounds) : Bounds :=
  if bd.r ≤ bd.l ∨ bd.t ≤ bd.b then ⟨0, 0, 1, 1⟩ else bd

/-- The padded frame of `core.h` lines 132–135: bounds scaled by `scale`
and expanded by `range` on all four sides. -/
def frameOf (bd : Bounds) (scale range : ℚ) : Bounds :=
  ⟨bd.l * scale - range, bd.b * scale - range,
   bd.r * scale + range, bd.t * scale + range⟩

/-- The projection of `core.h` lines 140–144: uniform scale with the
translation `(-frameL / scale, -frameB / scale)`. -/
def projectionUsed (bd : Bounds) (scale range : ℚ) : Projection :=
  { scaling := (scale, scale),
    translate := (-(frameOf bd scale range).l / scale,
                  -(frameOf bd scale range).b / scale) }

/-- One bitmap row of the pixel copy-out loop (`core.h` lines 168–176),
3-channel variant: samples at `x = 0, …, w-1` for a fixed row `y`. -/
def rowPixels3 (sample : ℕ → ℕ → ℚ × ℚ × ℚ) (y : ℕ) : ℕ → List ℚ
  | 0 => []
  | w + 1 =>
      rowPixels3 sample y w ++
        [(sample w y).1, (sample w y).2.1, (sample w y).2.2]

/-- All bitmap rows of the 3-channel pixel copy-out loop: rows
`y = 0, …, h-1`, bottom row first. -/
def gridPixels3 (sample : ℕ → ℕ → ℚ × ℚ × ℚ) : ℕ → ℕ → List ℚ
  | 0, _ => []
  | h + 1, w => gridPixels3 sample h w ++ rowPixels3 sample h w

/-- One bitmap row of the 4-channel copy-out loop (`core.h` lines 260–269). -/
def rowPixels4 (sample : ℕ → ℕ → ℚ × ℚ × ℚ × ℚ) (y : ℕ) : ℕ → List ℚ
  | 0 => []
  | w + 1 =>
      rowPixels4 sample y w ++
        [(sample w y).1, (sample w y).2.1, (sample w y).2.2.1, (sample w y).2.2.2]

/-- All bitmap rows of the 4-channel pixel copy-out loop. -/
def gridPixels4 (sample : ℕ → ℕ → ℚ × ℚ × ℚ × ℚ) : ℕ → ℕ → List ℚ
  | 0, _ => []
  | h + 1, w => gridPixels4 sample h w ++ rowPixels4 sample h w

/-- The pixel buffer built by `result.pixels.resize(width*height*3)` plus
the nested copy loops: the buffer has `width*height*3` entries (vector
`resize` value-initializes to `0.0f`), and the loops overwrite the entries
they reach. -/
def pixelsOf3 (sample : ℕ → ℕ → ℚ × ℚ × ℚ) (w h : ℤ) : List ℚ :=
  gridPixels3 sample h.toNat w.toNat ++
    List.replicate ((w * h * 3).toNat - (gridPixels3 sample h.toNat w.toNat).length) 0

/-- 4-channel variant of `pixelsOf3`. -/
def pixelsOf4 (sample : ℕ → ℕ → ℚ × ℚ × ℚ × ℚ) (w h : ℤ) : List ℚ :=
  gridPixels4 sample h.toNat w.toNat ++
    List.replicate ((w * h * 4).toNat - (gridPixels4 sample h.toNat w.toNat).length) 0

/-- Steps 4–7 of `generateOne` (`core.h` lines 113–176), shared verbatim by
all four generation entry points: normalize, color edges with threshold 3,
measure and fix up bounds, build the projection, rasterize and pack. -/
def packResult (env : Env) (font : FontSpec) (shape0 : Shape) (advance : ℚ)
    (fontSize pixelRange : ℚ) (mtsdf : Bool) : GlyphResult :=
  let shape := env.edgeColoringSimple (env.normalize shape0) 3
  let bd := fixBounds shape.bound
  let scale := fontSize / font.emSize
  let range := pixelRange / 2
  let frame := frameOf bd scale range
  let width : ℤ := ⌈frame.r - frame.l⌉
  let height : ℤ := ⌈frame.t - frame.b⌉
  let proj := projectionUsed bd scale range
  { success := true, width := width, height := height,
    channels := if mtsdf then 4 else 3,
    advance := advance * scale,
    planeBounds := ⟨bd.l * scale, bd.b * scale, bd.r * scale, bd.t * scale⟩,
    atlasBounds := ⟨0, 0, (width : ℚ), (height : ℚ)⟩,
    pixels :=
      if mtsdf then
        pixelsOf4 (fun x y => env.mtsdfSample shape proj pixelRange x y) width height
      else
        pixelsOf3 (fun x y => env.msdfSample shape proj pixelRange x y) width height }

/-- Common shape of the four generation functions of `core.h`
(`generateOne`, `generateOneMTSDF`, `generateOneVar`, `generateOneMTSDFVar`),
which are textually identical up to the channel count and the optional
`applyVariationAxes` call guarded by `numAxes > 0`. -/
def generateCore (env : Env) (fontBytes : List ℕ) (charCode : ℕ)
    (fontSize pixelRange : ℚ) (axes : List VariationAxis) (mtsdf : Bool) :
    GlyphResult :=
  let channels := if mtsdf then 4 else 3
  if env.ftInitOk = false then emptyResult channels
  else
    match env.decode fontBytes with
    | none => emptyResult channels
    | some font =>
        let coords :=
          if 0 < axes.length then (applyVariationAxes font axes).2 else []
        match loadGlyph font coords charCode with
        | none => emptyResult channels
        | some (shape0, advance) =>
            packResult env font shape0 advance fontSize pixelRange mtsdf

/-- `generateOne` of `core.h` lines 88–181. -/
def generateOne (env : Env) (fontBytes : List ℕ) (charCode : ℕ)
    (fontSize pixelRange : ℚ) : GlyphResult :=
  generateCore env fontBytes charCode fontSize pixelRange [] false

/-- `generateOneMTSDF` of `core.h` lines 186–274. -/
def generateOneMTSDF (env : Env) (fontBytes : List ℕ) (charCode : ℕ)
    (fontSize pixelRange : ℚ) : GlyphResult :=
  generateCore env fontBytes charCode fontSize pixelRange [] true

/-- `generateOneVar` of `core.h` lines 279–371. -/
def generateOneVar (env : Env) (fontBytes : List ℕ) (charCode : ℕ)
    (fontSize pixelRange : ℚ) (axes : List VariationAxis) : GlyphResult :=
  generateCore env fontBytes charCode fontSize pixelRange axes false

/-- `generateOneMTSDFVar` of `core.h` lines 376–469. -/
def generateOneMTSDFVar (env : Env) (fontBytes : List ℕ) (charCode : ℕ)
    (fontSize pixelRange : ℚ) (axes : List VariationAxis) : GlyphResult :=
  generateCore env fontBytes charCode fontSize pixelRange axes true

end msdf_core

/-- The mutable state shared by the TypeScript wrapper and the WASM binding
layer: `fontLoaded`/`fontLen` live in the `MSDFGenerator` instance
(`msdf-generator.ts`), and the three grow-only scratch buffers
(`g_fontBuffer`, `g_pixelBuffer`, `g_axesBuffer`) live in
`wasm_binding.cpp`. -/
structure GenState where
  fontLoaded : Bool
  fontLen : ℕ
  fontBuffer : List ℕ
  pixelBuffer : List ℚ
  axesBuffer : List VariationAxis
  deriving DecidableEq

/-- A freshly constructed `MSDFGenerator` with fresh WASM buffers:
`fontLoaded` is initialized to `false` and the scratch buffers are empty. -/
def initState : GenState :=
  { fontLoaded := false, fontLen := 0, fontBuffer := [], pixelBuffer := [],
    axesBuffer := [] }

namespace MSDFGenerator

/-- `MSDFGenerator.loadFont` plus `prepare_font_buffer`: grow the font
buffer if needed (`resize` preserves the existing prefix and
zero-initializes new entries), copy the font bytes to its start, record the
length and mark the font loaded. -/
def loadFont (s : GenState) (fontBytes : List ℕ) : GenState :=
  let grown :=
    if s.fontBuffer.length < fontBytes.length then
      s.fontBuffer ++ List.replicate (fontBytes.length - s.fontBuffer.length) 0
    else s.fontBuffer
  { s with
    fontLoaded := true
    fontLen := fontBytes.length
    fontBuffer := fontBytes ++ grown.drop fontBytes.length }

/-- The binding's pixel copy-out (`wasm_binding.cpp`): grow `g_pixelBuffer`
to at least the result size, then `memcpy` the result pixels to its start. -/
def writePixels (s : GenState) (px : List ℚ) : GenState :=
  let grown :=
    if s.pixelBuffer.length < px.length then
      s.pixelBuffer ++ List.replicate (px.length - s.pixelBuffer.length) 0
    else s.pixelBuffer
  { s with pixelBuffer := px ++ grown.drop px.length }

/-- `MSDFMetrics` of `msdf-generator.ts` (the values the wrapper reads back
from the 10-float metrics array; integer dimensions arrive as floats). -/
structure MSDFMetrics where
  width : ℚ
  height : ℚ
  advance : ℚ
  planeBounds : Bounds
  atlasL : ℚ
  atlasB : ℚ
  deriving DecidableEq

/-- `MSDFGlyph` of `msdf-generator.ts`: metrics plus the `Float32Array`
copied out of the WASM heap. -/
structure MSDFGlyph where
  metrics : MSDFMetrics
  pixels : List ℚ
  deriving DecidableEq

/-- The shared body of the wrapper's four generation methods, after the
`fontLoaded` check: the binding writes the metrics and (on success) the
pixels into the scratch buffer; the wrapper returns `null` on failure,
validates the dimensions against `(0, 4096]`, and otherwise copies
`width*height*channels` floats out of the heap. -/
def readResult (s : GenState) (res : msdf_core.GlyphResult) (channels : ℕ) :
    Option MSDFGlyph × GenState :=
  if res.success = false then (none, s)
  else
    let s' := writePixels s res.pixels
    if res.width ≤ 0 ∨ res.height ≤ 0 ∨ 4096 < res.width ∨ 4096 < res.height then
      (none, s')
    else
      let pixelCount := res.width.toNat * res.height.toNat * channels
      (some { metrics := { width := (res.width : ℚ), height := (res.height : ℚ),
                           advance := res.advance,
                           planeBounds := res.planeBounds,
                           atlasL := 0, atlasB := 0 },
              pixels := s'.pixelBuffer.take pixelCount }, s')

/-- The `if (!this.fontLoaded) throw` guard followed by a core call on the
loaded font bytes and `readResult`. -/
def runGenerate (s : GenState) (coreFn : List ℕ → msdf_core.GlyphResult)
    (channels : ℕ) : Except String (Option MSDFGlyph × GenState) :=
  if s.fontLoaded = false then .error "Font not loaded"
  else .ok (readResult s (coreFn (s.fontBuffer.take s.fontLen)) channels)

/-- `MSDFGenerator.hasGlyph` of `msdf-generator.ts` lines 67–70. -/
def hasGlyph (env : Env) (s : GenState) (charCode : ℕ) : Except String Bool :=
  if s.fontLoaded = false then .error "Font not loaded"
  else .ok (msdf_core.hasGlyph env (s.fontBuffer.take s.fontLen) charCode)

/-- `MSDFGenerator.generate` of `msdf-generator.ts` lines 78–139. -/
def generate (env : Env) (s : GenState) (charCode : ℕ)
    (fontSize pixelRange : ℚ) : Except String (Option MSDFGlyph × GenState) :=
  runGenerate s
    (fun fb => msdf_core.generateOne env fb charCode fontSize pixelRange) 3

/-- `MSDFGenerator.generateMTSDF` of `msdf-generator.ts` lines 147–204. -/
def generateMTSDF (env : Env) (s : GenState) (charCode : ℕ)
    (fontSize pixelRange : ℚ) : Except String (Option MSDFGlyph × GenState) :=
  runGenerate s
    (fun fb => msdf_core.generateOneMTSDF env fb charCode fontSize pixelRange) 4

/-- `MSDFGenerator.generateVar` of `msdf-generator.ts` lines 238–277; the
binding passes the current `g_axesBuffer` to `generateOneVar`. -/
def generateVar (env : Env) (s : GenState) (charCode : ℕ)
    (fontSize pixelRange : ℚ) : Except String (Option MSDFGlyph × GenState) :=
  runGenerate s
    (fun fb =>
      msdf_core.generateOneVar env fb charCode fontSize pixelRange s.axesBuffer) 3

/-- `MSDFGenerator.generateMTSDFVar` of `msdf-generator.ts` lines 282–321. -/
def generateMTSDFVar (env : Env) (s : GenState) (charCode : ℕ)
    (fontSize pixelRange : ℚ) : Except String (Option MSDFGlyph × GenState) :=
  runGenerate s
    (fun fb =>
      msdf_core.generateOneMTSDFVar env fb charCode fontSize pixelRange
        s.axesBuffer) 4

/-- The loop body of `MSDFGenerator.setVariationAxes`: each axis tag must be
exactly 4 characters (otherwise the method throws, leaving the axes added so
far in the buffer); valid tags are appended to `g_axesBuffer` via
`add_variation_axis`. -/
def setVariationAxesLoop (s : GenState) :
    List (String × ℚ) → Except String GenState
  | [] => .ok s
  | (tag, value) :: rest =>
      if tag.length ≠ 4 then
        .error ("Axis tag must be 4 characters: \"" ++ tag ++ "\"")
      else
        setVariationAxesLoop
          { s with axesBuffer := s.axesBuffer ++ [⟨tag, value⟩] } rest

/-- `MSDFGenerator.setVariationAxes` of `msdf-generator.ts` lines 211–226:
clears `g_axesBuffer` and adds the given axes in order. -/
def setVariationAxes (s : GenState) (axes : List (String × ℚ)) :
    Except String GenState :=
  setVariationAxesLoop { s with axesBuffer := [] } axes

/-- `MSDFGenerator.clearVariationAxes` of `msdf-generator.ts`. -/
def clearVariationAxes (s : GenState) : GenState :=
  { s with axesBuffer := [] }

end MSDFGenerator

/-- The wrapper's dimension sanity bound: a computed width or height
outside `(0, 4096]` (`msdf-generator.ts` line 112). -/
def badDims (w h : ℤ) : Prop :=
  w ≤ 0 ∨ h ≤ 0 ∨ 4096 < w ∨ 4096 < h

/-- Whether one variation axis is successfully applied by the core: its tag
maps to a standard axis name and `setFontVariationAxis` accepts that name
and value (the specification's "axes successfully applied"). -/
def appliedOk (f : FontSpec) (a : VariationAxis) : Bool :=
  match msdf_core.tagToName a.tag with
  | some name => f.setAxisOk name a.value
  | none => false

/-! ## Concrete fixtures

A small concrete environment used to evaluate the pipeline on explicit
inputs: one font (`fontA`) with a wide glyph at codepoint 65, a tall glyph
at codepoint 66, an empty outline at codepoint 32 (space), a codepoint 100
mapped to glyph index 0 (absent) and a codepoint 48 whose index lookup
fails; the font exposes a weight axis and resolves the custom tag "CASL"
through its own axis name table. -/

/-- A wide glyph outline: bounds `(0, 0, 4, 2)`. -/
def shapeA : Shape := ⟨1, ⟨0, 0, 4, 2⟩⟩

/-- An empty outline (space): degenerate bounds. -/
def shapeSpace : Shape := ⟨2, ⟨0, 0, 0, 0⟩⟩

/-- A tall glyph outline: bounds `(0, 0, 1, 3)`. -/
def shapeTall : Shape := ⟨3, ⟨0, 0, 1, 3⟩⟩

/-- The concrete test font. -/
def fontA : FontSpec :=
  { glyphIndexOk := fun c => !(c = 48 : Bool)
    glyphIndex := fun c => if c = 100 then 0 else c
    outlineOk := fun _ => true
    emSize := 2
    setAxisOk := fun name _ => name = "Weight"
    nameTableAxis := fun t => if t = "CASL" then some "Casual" else none
    outline := fun _ c =>
      if c = 32 then shapeSpace else if c = 66 then shapeTall else shapeA
    advance := fun _ _ => 10 }

/-- The concrete test environment: decodes the byte buffer `[7]` to
`fontA`, leaves shapes unchanged by normalization and coloring, and
rasterizes every pixel to zero samples. -/
def envA : Env :=
  { ftInitOk := true
    decode := fun bs => if bs = [7] then some fontA else none
    normalize := fun s => s
    edgeColoringSimple := fun s _ => s
    msdfSample := fun _ _ _ _ _ => (0, 0, 0)
    mtsdfSample := fun _ _ _ _ _ => (0, 0, 0, 0) }

/-- The generator state after `loadFont` with the bytes decoding to
`fontA`. -/
def stateA : GenState := MSDFGenerator.loadFont initState [7]

namespace msdf_core

theorem rowPixels3_length (sample : ℕ → ℕ → ℚ × ℚ × ℚ) (y : ℕ) :
    ∀ w, (rowPixels3 sample y w).length = 3 * w := by
  intro w
  induction w with
  | zero => rfl
  | succ n ih => simp [rowPixels3, ih]; omega

theorem gridPixels3_length (sample : ℕ → ℕ → ℚ × ℚ × ℚ) (w : ℕ) :
    ∀ h, (gridPixels3 sample h w).length = h * (3 * w) := by
  intro h
  induction h with
  | zero => simp [gridPixels3]
  | succ n ih => simp [gridPixels3, ih, rowPixels3_length]; ring

theorem rowPixels4_length (sample : ℕ → ℕ → ℚ × ℚ × ℚ × ℚ) (y : ℕ) :
    ∀ w, (rowPixels4 sample y w).length = 4 * w := by
  intro w
  induction w with
  | zero => rfl
  | succ n ih => simp [rowPixels4, ih]; omega

theorem gridPixels4_length (sample : ℕ → ℕ → ℚ × ℚ × ℚ × ℚ) (w : ℕ) :
    ∀ h, (gridPixels4 sample h w).length = h * (4 * w) := by
  intro h
  induction h with
  | zero => simp [gridPixels4]
  | succ n ih => simp [gridPixels4, ih, rowPixels4_length]; ring

theorem pixelsOf3_length (sample : ℕ → ℕ → ℚ × ℚ × ℚ) (w h : ℤ)
    (hw : 0 ≤ w) (hh : 0 ≤ h) :
    (pixelsOf3 sample w h).length = (w * h * 3).toNat := by
  obtain ⟨a, rfl⟩ := Int.eq_ofNat_of_zero_le hw
  obtain ⟨b, rfl⟩ := Int.eq_ofNat_of_zero_le hh
  have hkey : ((a : ℤ) * b * 3).toNat = b * (3 * a) := by
    have : ((a : ℤ) * b * 3) = ((b * (3 * a) : ℕ) : ℤ) := by push_cast; ring
    rw [this, Int.toNat_natCast]
  simp only [pixelsOf3, List.length_append, List.length_replicate,
    gridPixels3_length, Int.toNat_natCast, hkey]
  omega

theorem pixelsOf4_length (sample : ℕ → ℕ → ℚ × ℚ × ℚ × ℚ) (w h : ℤ)
    (hw : 0 ≤ w) (hh : 0 ≤ h) :
    (pixelsOf4 sample w h).length = (w * h * 4).toNat := by
  obtain ⟨a, rfl⟩ := Int.eq_ofNat_of_zero_le hw
  obtain ⟨b, rfl⟩ := Int.eq_ofNat_of_zero_le hh
  have hkey : ((a : ℤ) * b * 4).toNat = b * (4 * a) := by
    have : ((a : ℤ) * b * 4) = ((b * (4 * a) : ℕ) : ℤ) := by push_cast; ring
    rw [this, Int.toNat_natCast]
  simp only [pixelsOf4, List.length_append, List.length_replicate,
    gridPixels4_length, Int.toNat_natCast, hkey]
  omega

theorem generateCore_success_eq (env : Env) (bytes : List ℕ) (c : ℕ)
    (fs pr : ℚ) (axes : List VariationAxis) (m : Bool) (font : FontSpec)
    (shape0 : Shape) (adv : ℚ)
    (hft : env.ftInitOk = true) (hdec : env.decode bytes = some font)
    (hload : loadGlyph font
      (if 0 < axes.length then (applyVariationAxes font axes).2 else []) c
      = some (shape0, adv)) :
    generateCore env bytes c fs pr axes m = packResult env font shape0 adv fs pr m := by
  simp [generateCore, hft, hdec, hload]

theorem fixBounds_eq_self (bd : Bounds) (h1 : bd.l < bd.r) (h2 : bd.b < bd.t) :
    fixBounds bd = bd := by
  unfold fixBounds
  rw [if_neg]
  push_neg
  exact ⟨by linarith, by linarith⟩

theorem fixBounds_unit (bd : Bounds) (h : bd.r ≤ bd.l ∨ bd.t ≤ bd.b) :
    fixBounds bd = ⟨0, 0, 1, 1⟩ := by
  unfold fixBounds
  rw [if_pos h]

theorem fixBounds_spread (bd : Bounds) :
    0 < (fixBounds bd).r - (fixBounds bd).l ∧ 0 < (fixBounds bd).t - (fixBounds bd).b := by
  unfold fixBounds
  split
  · norm_num
  · next h =>
      push_neg at h
      exact ⟨by linarith [h.1], by linarith [h.2]⟩

theorem generateCore_success_inv (env : Env) (bytes : List ℕ) (c : ℕ)
    (fs pr : ℚ) (axes : List VariationAxis) (m : Bool)
    (h : (generateCore env bytes c fs pr axes m).success = true) :
    env.ftInitOk = true ∧
      ∃ font shape0 adv, env.decode bytes = some font ∧
        loadGlyph font
          (if 0 < axes.length then (applyVariationAxes font axes).2 else []) c
          = some (shape0, adv) := by
  simp only [generateCore] at h
  by_cases hft : env.ftInitOk = false
  · rw [if_pos hft] at h
    simp [emptyResult] at h
  · have hft' : env.ftInitOk = true := by
      revert hft; cases env.ftInitOk <;> simp
    refine ⟨hft', ?_⟩
    rw [if_neg hft] at h
    cases hdec : env.decode bytes with
    | none => simp [hdec, emptyResult] at h
    | some font =>
        simp only [hdec] at h
        cases hload : loadGlyph font
            (if 0 < axes.length then (applyVariationAxes font axes).2 else []) c with
        | none => simp [hload, emptyResult] at h
        | some p =>
            obtain ⟨sh, adv⟩ := p
            exact ⟨font, sh, adv, rfl, hload⟩

theorem generateCore_eq_empty_or_pack (env : Env) (bytes : List ℕ) (c : ℕ)
    (fs pr : ℚ) (axes : List VariationAxis) (m : Bool) :
    generateCore env bytes c fs pr axes m = emptyResult (if m then 4 else 3) ∨
      ∃ font shape0 adv, env.decode bytes = some font ∧
        generateCore env bytes c fs pr axes m = packResult env font shape0 adv fs pr m := by
  simp only [generateCore]
  by_cases hft : env.ftInitOk = false
  · rw [if_pos hft]
    left; rfl
  · rw [if_neg hft]
    cases hdec : env.decode bytes with
    | none => left; rfl
    | some font =>
        cases hload : loadGlyph font
            (if 0 < axes.length then (applyVariationAxes font axes).2 else []) c with
        | none => left; simp [hload]
        | some p =>
            obtain ⟨sh, adv⟩ := p
            right
            exact ⟨font, sh, adv, rfl, by simp [hload]⟩

theorem generateCore_pixels_length (env : Env) (bytes : List ℕ) (c : ℕ)
    (fs pr : ℚ) (axes : List VariationAxis) (m : Bool)
    (hw : 0 ≤ (generateCore env bytes c fs pr axes m).width)
    (hh : 0 ≤ (generateCore env bytes c fs pr axes m).height) :
    ((generateCore env bytes c fs pr axes m).pixels.length : ℤ) =
      (generateCore env bytes c fs pr axes m).width *
        (generateCore env bytes c fs pr axes m).height * (if m then 4 else 3) := by
  rcases generateCore_eq_empty_or_pack env bytes c fs pr axes m with he | ⟨font, sh, adv, _, he⟩
  · rw [he]
    cases m <;> simp [emptyResult]
  · rw [he] at hw hh ⊢
    cases m
    · simp only [packResult] at hw hh ⊢
      simp only [Bool.false_eq_true, if_false] at hw hh ⊢
      rw [pixelsOf3_length _ _ _ hw hh]
      exact Int.toNat_of_nonneg (mul_nonneg (mul_nonneg hw hh) (by norm_num))
    · simp only [packResult] at hw hh ⊢
      simp only [if_true] at hw hh ⊢
      rw [pixelsOf4_length _ _ _ hw hh]
      exact Int.toNat_of_nonneg (mul_nonneg (mul_nonneg hw hh) (by norm_num))

theorem pixelsOf3_length_ge (sample : ℕ → ℕ → ℚ × ℚ × ℚ) (w h : ℤ) :
    w.toNat * h.toNat * 3 ≤ (pixelsOf3 sample w h).length := by
  simp only [pixelsOf3, List.length_append, List.length_replicate, gridPixels3_length]
  have hg : h.toNat * (3 * w.toNat) = w.toNat * h.toNat * 3 := by ring
  rw [hg]
  exact Nat.le_add_right _ _

theorem pixelsOf4_length_ge (sample : ℕ → ℕ → ℚ × ℚ × ℚ × ℚ) (w h : ℤ) :
    w.toNat * h.toNat * 4 ≤ (pixelsOf4 sample w h).length := by
  simp only [pixelsOf4, List.length_append, List.length_replicate, gridPixels4_length]
  have hg : h.toNat * (4 * w.toNat) = w.toNat * h.toNat * 4 := by ring
  rw [hg]
  exact Nat.le_add_right _ _

theorem generateCore_pixels_length_ge (env : Env) (bytes : List ℕ) (c : ℕ)
    (fs pr : ℚ) (axes : List VariationAxis) (m : Bool) :
    (generateCore env bytes c fs pr axes m).width.toNat *
        (generateCore env bytes c fs pr axes m).height.toNat * (if m then 4 else 3)
      ≤ (generateCore env bytes c fs pr axes m).pixels.length := by
  rcases generateCore_eq_empty_or_pack env bytes c fs pr axes m with he | ⟨font, sh, adv, _, he⟩
  · rw [he]
    cases m <;> simp [emptyResult]
  · rw [he]
    cases m
    · simpa only [packResult, Bool.false_eq_true, if_false] using
        pixelsOf3_length_ge _ _ _
    · simpa only [packResult, if_true] using pixelsOf4_length_ge _ _ _

theorem applyVariationAxes_go (f : FontSpec) :
    ∀ (axes : List VariationAxis) (n : ℕ) (cs : List (String × ℚ)),
      (axes.foldl
        (fun acc a =>
          match tagToName a.tag with
          | some name =>
              if f.setAxisOk name a.value then (acc.1 + 1, acc.2 ++ [(name, a.value)])
              else acc
          | none => acc)
        (n, cs)).1 = n + (axes.filter (appliedOk f)).length := by
  intro axes
  induction axes with
  | nil => intro n cs; simp
  | cons hd tl ih =>
      intro n cs
      simp only [List.foldl_cons, List.filter_cons]
      cases htag : tagToName hd.tag with
      | none => simp only [htag, appliedOk]; rw [ih]; simp [htag]
      | some name =>
          cases hset : f.setAxisOk name hd.value with
          | false =>
              simp only [htag, hset, if_false, Bool.false_eq_true]
              rw [ih]
              simp [appliedOk, htag, hset]
          | true =>
              simp only [htag, hset, if_true]
              rw [ih]
              simp only [appliedOk, htag, hset]
              simp
              omega

theorem applyVariationAxes_count (f : FontSpec) (axes : List VariationAxis) :
    (applyVariationAxes f axes).1 = (axes.filter (appliedOk f)).length := by
  simpa [applyVariationAxes] using applyVariationAxes_go f axes 0 []

theorem packResult_dims_mono (env : Env) (font : FontSpec) (shape0 : Shape)
    (adv pr fs₁ fs₂ : ℚ) (m : Bool) (hem : 0 < font.emSize) (hfs : fs₁ ≤ fs₂) :
    (packResult env font shape0 adv fs₁ pr m).width
        ≤ (packResult env font shape0 adv fs₂ pr m).width ∧
      (packResult env font shape0 adv fs₁ pr m).height
        ≤ (packResult env font shape0 adv fs₂ pr m).height := by
  have hd := fixBounds_spread ((env.edgeColoringSimple (env.normalize shape0) 3).bound)
  have hs : fs₁ / font.emSize ≤ fs₂ / font.emSize := by gcongr
  constructor
  · simp only [packResult, frameOf]
    apply Int.ceil_le_ceil
    nlinarith [mul_nonneg hd.1.le (sub_nonneg.mpr hs)]
  · simp only [packResult, frameOf]
    apply Int.ceil_le_ceil
    nlinarith [mul_nonneg hd.2.le (sub_nonneg.mpr hs)]

end msdf_core

theorem writePixels_take (s : GenState) (px : List ℚ) (n : ℕ)
    (hn : n ≤ px.length) :
    (MSDFGenerator.writePixels s px).pixelBuffer.take n = px.take n := by
  simp only [MSDFGenerator.writePixels]
  rw [List.take_append_of_le_length hn]

theorem writePixels_fields (s : GenState) (px : List ℚ) :
    (MSDFGenerator.writePixels s px).fontLoaded = s.fontLoaded ∧
      (MSDFGenerator.writePixels s px).fontLen = s.fontLen ∧
      (MSDFGenerator.writePixels s px).fontBuffer = s.fontBuffer ∧
      (MSDFGenerator.writePixels s px).axesBuffer = s.axesBuffer := by
  simp [MSDFGenerator.writePixels]

theorem readResult_good (s : GenState) (res : msdf_core.GlyphResult) (ch : ℕ)
    (hs : res.success = true)
    (hgood : ¬(res.width ≤ 0 ∨ res.height ≤ 0 ∨ 4096 < res.width ∨ 4096 < res.height)) :
    MSDFGenerator.readResult s res ch =
      (some { metrics := { width := (res.width : ℚ), height := (res.height : ℚ),
                           advance := res.advance, planeBounds := res.planeBounds,
                           atlasL := 0, atlasB := 0 },
              pixels := (MSDFGenerator.writePixels s res.pixels).pixelBuffer.take
                (res.width.toNat * res.height.toNat * ch) },
        MSDFGenerator.writePixels s res.pixels) := by
  simp only [MSDFGenerator.readResult]
  rw [hs, if_neg (by simp), if_neg hgood]

theorem readResult_snd_fields (s : GenState) (res : msdf_core.GlyphResult) (ch : ℕ) :
    (MSDFGenerator.readResult s res ch).2.fontLoaded = s.fontLoaded ∧
      (MSDFGenerator.readResult s res ch).2.fontLen = s.fontLen ∧
      (MSDFGenerator.readResult s res ch).2.fontBuffer = s.fontBuffer ∧
      (MSDFGenerator.readResult s res ch).2.axesBuffer = s.axesBuffer := by
  simp only [MSDFGenerator.readResult]
  by_cases hs : res.success = false
  · rw [if_pos hs]
    exact ⟨rfl, rfl, rfl, rfl⟩
  · rw [if_neg hs]
    by_cases hbad : res.width ≤ 0 ∨ res.height ≤ 0 ∨ 4096 < res.width ∨ 4096 < res.height
    · rw [if_pos hbad]
      exact writePixels_fields s res.pixels
    · rw [if_neg hbad]
      exact writePixels_fields s res.pixels

theorem readResult_fst_congr (s t : GenState) (res : msdf_core.GlyphResult) (ch : ℕ)
    (hlen : res.width.toNat * res.height.toNat * ch ≤ res.pixels.length) :
    (MSDFGenerator.readResult s res ch).1 = (MSDFGenerator.readResult t res ch).1 := by
  simp only [MSDFGenerator.readResult]
  by_cases hs : res.success = false
  · rw [if_pos hs, if_pos hs]
  · rw [if_neg hs, if_neg hs]
    by_cases hbad : res.width ≤ 0 ∨ res.height ≤ 0 ∨ 4096 < res.width ∨ 4096 < res.height
    · rw [if_pos hbad, if_pos hbad]
    · rw [if_neg hbad, if_neg hbad]
      simp only [Option.some.injEq]
      rw [writePixels_take s _ _ hlen, writePixels_take t _ _ hlen]

theorem runGenerate_some_inv (s : GenState) (F : List ℕ → msdf_core.GlyphResult)
    (ch : ℕ) (g : MSDFGenerator.MSDFGlyph) (s' : GenState)
    (hok : MSDFGenerator.runGenerate s F ch = .ok (some g, s')) :
    (F (s.fontBuffer.take s.fontLen)).success = true ∧
      0 < (F (s.fontBuffer.take s.fontLen)).width ∧
      0 < (F (s.fontBuffer.take s.fontLen)).height ∧
      g.metrics.width = ((F (s.fontBuffer.take s.fontLen)).width : ℚ) ∧
      g.metrics.height = ((F (s.fontBuffer.take s.fontLen)).height : ℚ) ∧
      g.pixels = (MSDFGenerator.writePixels s (F (s.fontBuffer.take s.fontLen)).pixels).pixelBuffer.take
        ((F (s.fontBuffer.take s.fontLen)).width.toNat *
          (F (s.fontBuffer.take s.fontLen)).height.toNat * ch) := by
  set res := F (s.fontBuffer.take s.fontLen) with hres
  unfold MSDFGenerator.runGenerate at hok
  by_cases hl : s.fontLoaded = false
  · rw [if_pos hl] at hok
    exact absurd hok (by simp)
  · rw [if_neg hl] at hok
    have h1 : MSDFGenerator.readResult s res ch = (some g, s') := by
      injection hok
    simp only [MSDFGenerator.readResult] at h1
    by_cases hs : res.success = false
    · rw [if_pos hs] at h1
      simp at h1
    · rw [if_neg hs] at h1
      by_cases hbad : res.width ≤ 0 ∨ res.height ≤ 0 ∨ 4096 < res.width ∨ 4096 < res.height
      · rw [if_pos hbad] at h1
        simp at h1
      · rw [if_neg hbad] at h1
        push_neg at hbad
        injection h1 with hga hsa
        injection hga with hg
        refine ⟨by revert hs; cases res.success <;> simp, hbad.1, hbad.2.1, ?_, ?_, ?_⟩
        · rw [← hg]
        · rw [← hg]
        · rw [← hg]

theorem runGenerate_repeat (s : GenState) (F : List ℕ → msdf_core.GlyphResult)
    (ch : ℕ)
    (hlen : ∀ bytes, (F bytes).width.toNat * (F bytes).height.toNat * ch
      ≤ (F bytes).pixels.length) :
    Except.map Prod.fst (MSDFGenerator.runGenerate s F ch) =
      Except.map Prod.fst
        (match MSDFGenerator.runGenerate s F ch with
          | .ok (_, s₁) => MSDFGenerator.runGenerate s₁ F ch
          | .error e => .error e) := by
  unfold MSDFGenerator.runGenerate
  by_cases hl : s.fontLoaded = false
  · rw [if_pos hl]
  · rw [if_neg hl]
    rcases hp : MSDFGenerator.readResult s (F (s.fontBuffer.take s.fontLen)) ch
      with ⟨g1, s1⟩
    have hfields := readResult_snd_fields s (F (s.fontBuffer.take s.fontLen)) ch
    rw [hp] at hfields
    have hl1 : ¬(s1.fontLoaded = false) := by
      rw [show s1.fontLoaded = s.fontLoaded from hfields.1]
      exact hl
    have hbuf : s1.fontBuffer.take s1.fontLen = s.fontBuffer.take s.fontLen := by
      rw [show s1.fontBuffer = s.fontBuffer from hfields.2.2.1,
        show s1.fontLen = s.fontLen from hfields.2.1]
    simp only [Except.map, if_neg hl1, hbuf]
    have hcongr := readResult_fst_congr s1 s (F (s.fontBuffer.take s.fontLen)) ch
      (hlen (s.fontBuffer.take s.fontLen))
    rw [hcongr, hp]

theorem runGenerate_some_pixels (s : GenState) (F : List ℕ → msdf_core.GlyphResult)
    (ch : ℕ) (g : MSDFGenerator.MSDFGlyph) (s' : GenState)
    (hok : MSDFGenerator.runGenerate s F ch = .ok (some g, s'))
    (hlen_eq : ∀ bytes, 0 ≤ (F bytes).width → 0 ≤ (F bytes).height →
      ((F bytes).pixels.length : ℤ) = (F bytes).width * (F bytes).height * ch) :
    (g.pixels.length : ℚ) = g.metrics.width * g.metrics.height * (ch : ℚ) := by
  obtain ⟨hs, hw, hh, hmw, hmh, hpix⟩ := runGenerate_some_inv s F ch g s' hok
  set res := F (s.fontBuffer.take s.fontLen) with hres
  have hlenZ := hlen_eq _ hw.le hh.le
  have hcount : res.pixels.length = res.width.toNat * res.height.toNat * ch := by
    have h0 : ((res.width.toNat * res.height.toNat * ch : ℕ) : ℤ)
        = res.width * res.height * ch := by
      push_cast [Int.toNat_of_nonneg hw.le, Int.toNat_of_nonneg hh.le]
      ring
    exact_mod_cast hlenZ.trans h0.symm
  have htake : (MSDFGenerator.writePixels s res.pixels).pixelBuffer.take
      (res.width.toNat * res.height.toNat * ch) = res.pixels := by
    rw [writePixels_take s res.pixels _ (le_of_eq hcount.symm), ← hcount,
      List.take_length]
  have hx : ((res.width.toNat : ℕ) : ℚ) = ((res.width : ℤ) : ℚ) := by
    exact_mod_cast congrArg (fun z : ℤ => (z : ℚ)) (Int.toNat_of_nonneg hw.le)
  have hy : ((res.height.toNat : ℕ) : ℚ) = ((res.height : ℤ) : ℚ) := by
    exact_mod_cast congrArg (fun z : ℤ => (z : ℚ)) (Int.toNat_of_nonneg hh.le)
  rw [hpix, htake, hcount, hmw, hmh]
  push_cast
  rw [hx, hy]

theorem setVariationAxesLoop_ok (axes : List (String × ℚ)) :
    ∀ s : GenState, (∀ a ∈ axes, a.1.length = 4) →
      ∃ s', MSDFGenerator.setVariationAxesLoop s axes = .ok s' := by
  induction axes with
  | nil => intro s _; exact ⟨s, rfl⟩
  | cons hd tl ih =>
      intro s hall
      obtain ⟨t, v⟩ := hd
      have h4 : t.length = 4 := hall (t, v) (by simp)
      simp only [MSDFGenerator.setVariationAxesLoop]
      rw [if_neg (by simp [h4])]
      exact ih _ (fun a ha => hall a (by simp [ha]))

/-! ## Claims -/

/-- C1: for every (font, codepoint) pair where the existence probe
`hasGlyph` returns false, a generation call on the same inputs returns
`success = false`: the probe and the generation outcome never silently
diverge. -/
theorem probe_generate_agreement (env : Env) (bytes : List ℕ) (c : ℕ)
    (fs pr : ℚ) (h : msdf_core.hasGlyph env bytes c = false) :
    (msdf_core.generateOne env bytes c fs pr).success = false := by
  unfold msdf_core.generateOne msdf_core.generateCore
  unfold msdf_core.hasGlyph at h
  cases hft : env.ftInitOk with
  | false => simp [hft, msdf_core.emptyResult]
  | true =>
      rw [hft] at h
      simp only [hft] at h ⊢
      simp at h ⊢
      cases hdec : env.decode bytes with
      | none => simp [hdec, msdf_core.emptyResult]
      | some font =>
          rw [hdec] at h
          have h' : (font.glyphIndexOk c && font.glyphIndex c != 0) = false := h
          have hl : msdf_core.loadGlyph font [] c = none := by
            unfold msdf_core.loadGlyph
            cases hA : font.glyphIndexOk c with
            | false => simp [hA]
            | true =>
                cases hB : (font.glyphIndex c != 0) with
                | false => simp [hA, hB]
                | true => rw [hA, hB] at h'; simp at h'
          simp [hdec, hl, msdf_core.emptyResult]

/-- Witness for C1 at a concrete input: codepoint 100 maps to glyph
index 0 in `fontA`, the probe says false, and generation fails. -/
theorem probe_generate_agreement_witness :
    msdf_core.hasGlyph envA [7] 100 = false ∧
      (msdf_core.generateOne envA [7] 100 2 4).success = false :=
  ⟨by decide, probe_generate_agreement envA [7] 100 2 4 (by decide)⟩

/-- C2: for every successful generation with measured shape bounds
`bd = (l, b, r, t)` and font em-size `unitsPerEm`, the core computes
`scale = fontSize / unitsPerEm`, `range = pixelRange / 2`, a padded frame
equal to the bounds scaled by `scale` and expanded by `range` on all four
sides, integer bitmap `width = ⌈frame.r - frame.l⌉` and
`height = ⌈frame.t - frame.b⌉`, and a translation placing the padded
frame's bottom-left at pixel `(0, 0)`. -/
theorem projection_formulas (env : Env) (bytes : List ℕ) (c : ℕ) (fs pr : ℚ)
    (font : FontSpec) (shape0 : Shape) (adv : ℚ) (bd : Bounds)
    (hft : env.ftInitOk = true) (hdec : env.decode bytes = some font)
    (hload : msdf_core.loadGlyph font [] c = some (shape0, adv))
    (hbd : (env.edgeColoringSimple (env.normalize shape0) 3).bound = bd)
    (hnd : bd.l < bd.r ∧ bd.b < bd.t) :
    (msdf_core.generateOne env bytes c fs pr).success = true ∧
      msdf_core.frameOf bd (fs / font.emSize) (pr / 2) =
        ⟨bd.l * (fs / font.emSize) - pr / 2, bd.b * (fs / font.emSize) - pr / 2,
         bd.r * (fs / font.emSize) + pr / 2, bd.t * (fs / font.emSize) + pr / 2⟩ ∧
      (msdf_core.generateOne env bytes c fs pr).width =
        ⌈(msdf_core.frameOf bd (fs / font.emSize) (pr / 2)).r -
          (msdf_core.frameOf bd (fs / font.emSize) (pr / 2)).l⌉ ∧
      (msdf_core.generateOne env bytes c fs pr).height =
        ⌈(msdf_core.frameOf bd (fs / font.emSize) (pr / 2)).t -
          (msdf_core.frameOf bd (fs / font.emSize) (pr / 2)).b⌉ ∧
      Projection.project (msdf_core.projectionUsed bd (fs / font.emSize) (pr / 2))
          ((msdf_core.frameOf bd (fs / font.emSize) (pr / 2)).l / (fs / font.emSize),
           (msdf_core.frameOf bd (fs / font.emSize) (pr / 2)).b / (fs / font.emSize))
        = (0, 0) := by
  have hgen := msdf_core.generateCore_success_eq env bytes c fs pr [] false
    font shape0 adv hft hdec (by simpa using hload)
  unfold msdf_core.generateOne
  rw [hgen]
  have hfix : msdf_core.fixBounds bd = bd := msdf_core.fixBounds_eq_self bd hnd.1 hnd.2
  refine ⟨rfl, rfl, ?_, ?_, ?_⟩
  · simp [msdf_core.packResult, hbd, hfix]
  · simp [msdf_core.packResult, hbd, hfix]
  · simp only [Projection.project, msdf_core.projectionUsed, Prod.mk.injEq]
    constructor <;> ring

/-- Witness for C2: for codepoint 65 of `fontA` (bounds `(0,0,4,2)`,
em-size 2) at `fontSize = 2`, `pixelRange = 4`, the projection formulas
give an 8×6 bitmap. -/
theorem projection_formulas_witness :
    (msdf_core.generateOne envA [7] 65 2 4).success = true ∧
      (msdf_core.generateOne envA [7] 65 2 4).width = 8 ∧
      (msdf_core.generateOne envA [7] 65 2 4).height = 6 := by
  have h := projection_formulas envA [7] 65 2 4 fontA shapeA 10 ⟨0, 0, 4, 2⟩
    rfl rfl rfl rfl (by norm_num)
  exact ⟨h.1, h.2.2.1.trans (by norm_num [msdf_core.frameOf, fontA]),
    h.2.2.2.1.trans (by norm_num [msdf_core.frameOf, fontA])⟩

/-- C3: a generation call whose extracted shape has zero-extent bounds
(`left ≥ right` or `bottom ≥ top`, e.g. a space glyph) gets the canonical
unit bounding box `(0, 0, 1, 1)` before padding, does not fail, and yields
a minimal canonical bitmap of at least 1 pixel plus padding. -/
theorem empty_shape_canonical (env : Env) (bytes : List ℕ) (c : ℕ)
    (fs pr : ℚ) (font : FontSpec) (shape0 : Shape) (adv : ℚ) (bd : Bounds)
    (hft : env.ftInitOk = true) (hdec : env.decode bytes = some font)
    (hload : msdf_core.loadGlyph font [] c = some (shape0, adv))
    (hbd : (env.edgeColoringSimple (env.normalize shape0) 3).bound = bd)
    (hdeg : bd.r ≤ bd.l ∨ bd.t ≤ bd.b)
    (hfs : 0 < fs) (hem : 0 < font.emSize) (hpr : 0 ≤ pr) :
    (msdf_core.generateOne env bytes c fs pr).success = true ∧
      (msdf_core.generateOne env bytes c fs pr).planeBounds =
        ⟨0, 0, fs / font.emSize, fs / font.emSize⟩ ∧
      (msdf_core.generateOne env bytes c fs pr).width = ⌈fs / font.emSize + pr⌉ ∧
      (msdf_core.generateOne env bytes c fs pr).height = ⌈fs / font.emSize + pr⌉ ∧
      1 ≤ (msdf_core.generateOne env bytes c fs pr).width ∧
      1 ≤ (msdf_core.generateOne env bytes c fs pr).height := by
  have hgen := msdf_core.generateCore_success_eq env bytes c fs pr [] false
    font shape0 adv hft hdec (by simpa using hload)
  unfold msdf_core.generateOne
  rw [hgen]
  have hfix : msdf_core.fixBounds bd = ⟨0, 0, 1, 1⟩ := msdf_core.fixBounds_unit bd hdeg
  have hscale : 0 < fs / font.emSize := div_pos hfs hem
  have harg : (1 * (fs / font.emSize) + pr / 2) - (0 * (fs / font.emSize) - pr / 2)
      = fs / font.emSize + pr := by ring
  have hwidth : (msdf_core.packResult env font shape0 adv fs pr false).width
      = ⌈fs / font.emSize + pr⌉ := by
    simp only [msdf_core.packResult, msdf_core.frameOf, hbd, hfix]
    rw [harg]
  have hheight : (msdf_core.packResult env font shape0 adv fs pr false).height
      = ⌈fs / font.emSize + pr⌉ := by
    simp only [msdf_core.packResult, msdf_core.frameOf, hbd, hfix]
    rw [harg]
  have hpos : (1 : ℤ) ≤ ⌈fs / font.emSize + pr⌉ := by
    have : (0 : ℚ) < fs / font.emSize + pr := by linarith
    have := Int.ceil_pos.mpr this
    linarith
  refine ⟨rfl, ?_, hwidth, hheight, ?_, ?_⟩
  · simp [msdf_core.packResult, hbd, hfix]
  · rw [hwidth]; exact hpos
  · rw [hheight]; exact hpos

/-- Witness for C3: codepoint 32 (space) of `fontA` has an empty outline;
at `fontSize = 2`, `pixelRange = 4` generation succeeds with a 5×5 bitmap
and the scaled unit box as plane bounds. -/
theorem empty_shape_canonical_witness :
    (msdf_core.generateOne envA [7] 32 2 4).success = true ∧
      (msdf_core.generateOne envA [7] 32 2 4).width = 5 ∧
      1 ≤ (msdf_core.generateOne envA [7] 32 2 4).height := by
  have h := empty_shape_canonical envA [7] 32 2 4 fontA shapeSpace 10 ⟨0, 0, 0, 0⟩
    rfl rfl rfl rfl (by norm_num) (by norm_num) (by norm_num [fontA]) (by norm_num)
  exact ⟨h.1, h.2.2.1.trans (by norm_num [fontA]), h.2.2.2.2.2⟩

/-- C8: for every successful generation, the returned advance equals the
design-unit advance multiplied by `scale = fontSize / emSize`, and the
returned plane bounds equal the shape's (measured, non-degenerate)
bounding box scaled by the same factor — the distance-range padding is not
included. -/
theorem metrics_scaled (env : Env) (bytes : List ℕ) (c : ℕ) (fs pr : ℚ)
    (font : FontSpec) (shape0 : Shape) (adv : ℚ) (bd : Bounds)
    (hft : env.ftInitOk = true) (hdec : env.decode bytes = some font)
    (hload : msdf_core.loadGlyph font [] c = some (shape0, adv))
    (hbd : (env.edgeColoringSimple (env.normalize shape0) 3).bound = bd)
    (hnd : bd.l < bd.r ∧ bd.b < bd.t) :
    (msdf_core.generateOne env bytes c fs pr).advance = adv * (fs / font.emSize) ∧
      (msdf_core.generateOne env bytes c fs pr).planeBounds =
        ⟨bd.l * (fs / font.emSize), bd.b * (fs / font.emSize),
         bd.r * (fs / font.emSize), bd.t * (fs / font.emSize)⟩ := by
  have hgen := msdf_core.generateCore_success_eq env bytes c fs pr [] false
    font shape0 adv hft hdec (by simpa using hload)
  unfold msdf_core.generateOne
  rw [hgen]
  have hfix : msdf_core.fixBounds bd = bd := msdf_core.fixBounds_eq_self bd hnd.1 hnd.2
  exact ⟨rfl, by simp [msdf_core.packResult, hbd, hfix]⟩

/-- Witness for C8: codepoint 65 of `fontA` at `fontSize = 2` (em 2, so
`scale = 1`): the advance 10 and bounds `(0,0,4,2)` come back unscaled. -/
theorem metrics_scaled_witness :
    (msdf_core.generateOne envA [7] 65 2 4).advance = 10 ∧
      (msdf_core.generateOne envA [7] 65 2 4).planeBounds = ⟨0, 0, 4, 2⟩ := by
  have h := metrics_scaled envA [7] 65 2 4 fontA shapeA 10 ⟨0, 0, 4, 2⟩
    rfl rfl rfl rfl (by norm_num)
  exact ⟨h.1.trans (by norm_num [fontA]),
    h.2.trans (by norm_num [fontA, Bounds.mk.injEq])⟩

/-- C4: the pixel buffer length equals `width*height*3` for MSDF results
and `width*height*4` for MTSDF results, both in the core `GlyphResult`
(whenever the dimensions are non-negative, as they are for every real
glyph) and in the `Float32Array` the wrapper returns to the caller. -/
theorem channel_count :
    (∀ (env : Env) (bytes : List ℕ) (c : ℕ) (fs pr : ℚ),
        0 ≤ (msdf_core.generateOne env bytes c fs pr).width →
        0 ≤ (msdf_core.generateOne env bytes c fs pr).height →
        ((msdf_core.generateOne env bytes c fs pr).pixels.length : ℤ) =
          (msdf_core.generateOne env bytes c fs pr).width *
            (msdf_core.generateOne env bytes c fs pr).height * 3) ∧
    (∀ (env : Env) (bytes : List ℕ) (c : ℕ) (fs pr : ℚ),
        0 ≤ (msdf_core.generateOneMTSDF env bytes c fs pr).width →
        0 ≤ (msdf_core.generateOneMTSDF env bytes c fs pr).height →
        ((msdf_core.generateOneMTSDF env bytes c fs pr).pixels.length : ℤ) =
          (msdf_core.generateOneMTSDF env bytes c fs pr).width *
            (msdf_core.generateOneMTSDF env bytes c fs pr).height * 4) ∧
    (∀ (env : Env) (s : GenState) (c : ℕ) (fs pr : ℚ)
        (g : MSDFGenerator.MSDFGlyph) (s' : GenState),
        MSDFGenerator.generate env s c fs pr = .ok (some g, s') →
        (g.pixels.length : ℚ) = g.metrics.width * g.metrics.height * 3) ∧
    (∀ (env : Env) (s : GenState) (c : ℕ) (fs pr : ℚ)
        (g : MSDFGenerator.MSDFGlyph) (s' : GenState),
        MSDFGenerator.generateMTSDF env s c fs pr = .ok (some g, s') →
        (g.pixels.length : ℚ) = g.metrics.width * g.metrics.height * 4) := by
  refine ⟨?_, ?_, ?_, ?_⟩
  · intro env bytes c fs pr hw hh
    simpa using msdf_core.generateCore_pixels_length env bytes c fs pr [] false hw hh
  · intro env bytes c fs pr hw hh
    simpa using msdf_core.generateCore_pixels_length env bytes c fs pr [] true hw hh
  · intro env s c fs pr g s' hok
    simpa using runGenerate_some_pixels s
      (fun fb => msdf_core.generateOne env fb c fs pr) 3 g s' hok
      (fun bytes hw hh => by
        simpa using msdf_core.generateCore_pixels_length env bytes c fs pr [] false hw hh)
  · intro env s c fs pr g s' hok
    simpa using runGenerate_some_pixels s
      (fun fb => msdf_core.generateOneMTSDF env fb c fs pr) 4 g s' hok
      (fun bytes hw hh => by
        simpa using msdf_core.generateCore_pixels_length env bytes c fs pr [] true hw hh)

/-- Witness for C4: `fontA` codepoint 32 at `fontSize = 2`,
`pixelRange = 0` yields a 1×1 bitmap with 3 (resp. 4) samples, in the core
and through the wrapper. -/
theorem channel_count_witness :
    (((msdf_core.generateOne envA [7] 32 2 0).pixels.length : ℤ) =
        (msdf_core.generateOne envA [7] 32 2 0).width *
          (msdf_core.generateOne envA [7] 32 2 0).height * 3) ∧
    (((msdf_core.generateOneMTSDF envA [7] 32 2 0).pixels.length : ℤ) =
        (msdf_core.generateOneMTSDF envA [7] 32 2 0).width *
          (msdf_core.generateOneMTSDF envA [7] 32 2 0).height * 4) ∧
    (∃ g s', MSDFGenerator.generate envA stateA 32 2 0 = .ok (some g, s') ∧
        (g.pixels.length : ℚ) = g.metrics.width * g.metrics.height * 3) ∧
    (∃ g s', MSDFGenerator.generateMTSDF envA stateA 32 2 0 = .ok (some g, s') ∧
        (g.pixels.length : ℚ) = g.metrics.width * g.metrics.height * 4) := by
  have hwm : ∀ m : Bool, (msdf_core.generateCore envA [7] 32 2 0 [] m).width = 1
      ∧ (msdf_core.generateCore envA [7] 32 2 0 [] m).height = 1 := by
    intro m
    have heq := msdf_core.generateCore_success_eq envA [7] 32 2 0 [] m fontA shapeSpace 10
      rfl rfl (by simp [msdf_core.loadGlyph, fontA])
    rw [heq]
    constructor <;>
      norm_num [msdf_core.packResult, msdf_core.frameOf, msdf_core.fixBounds,
        envA, fontA, shapeSpace, Int.ceil_one]
  have hw3 : (msdf_core.generateOne envA (stateA.fontBuffer.take stateA.fontLen) 32 2 0).width = 1 :=
    (hwm false).1
  have hh3 : (msdf_core.generateOne envA (stateA.fontBuffer.take stateA.fontLen) 32 2 0).height = 1 :=
    (hwm false).2
  have hw4 : (msdf_core.generateOneMTSDF envA (stateA.fontBuffer.take stateA.fontLen) 32 2 0).width = 1 :=
    (hwm true).1
  have hh4 : (msdf_core.generateOneMTSDF envA (stateA.fontBuffer.take stateA.fontLen) 32 2 0).height = 1 :=
    (hwm true).2
  have hs3 : (msdf_core.generateOne envA (stateA.fontBuffer.take stateA.fontLen) 32 2 0).success = true := rfl
  have hgood3 : ¬((msdf_core.generateOne envA (stateA.fontBuffer.take stateA.fontLen) 32 2 0).width ≤ 0 ∨
      (msdf_core.generateOne envA (stateA.fontBuffer.take stateA.fontLen) 32 2 0).height ≤ 0 ∨
      4096 < (msdf_core.generateOne envA (stateA.fontBuffer.take stateA.fontLen) 32 2 0).width ∨
      4096 < (msdf_core.generateOne envA (stateA.fontBuffer.take stateA.fontLen) 32 2 0).height) := by
    rw [hw3, hh3]
    norm_num
  have h3base : MSDFGenerator.generate envA stateA 32 2 0 =
      .ok (MSDFGenerator.readResult stateA
        (msdf_core.generateOne envA (stateA.fontBuffer.take stateA.fontLen) 32 2 0) 3) := by
    simp only [MSDFGenerator.generate, MSDFGenerator.runGenerate]
    rw [if_neg (by decide)]
  have h3eq := h3base.trans (congrArg Except.ok (readResult_good _ _ _ hs3 hgood3))
  have hok3 : ∃ g s', MSDFGenerator.generate envA stateA 32 2 0 = .ok (some g, s') :=
    ⟨_, _, h3eq⟩
  have hs4 : (msdf_core.generateOneMTSDF envA (stateA.fontBuffer.take stateA.fontLen) 32 2 0).success = true := rfl
  have hgood4 : ¬((msdf_core.generateOneMTSDF envA (stateA.fontBuffer.take stateA.fontLen) 32 2 0).width ≤ 0 ∨
      (msdf_core.generateOneMTSDF envA (stateA.fontBuffer.take stateA.fontLen) 32 2 0).height ≤ 0 ∨
      4096 < (msdf_core.generateOneMTSDF envA (stateA.fontBuffer.take stateA.fontLen) 32 2 0).width ∨
      4096 < (msdf_core.generateOneMTSDF envA (stateA.fontBuffer.take stateA.fontLen) 32 2 0).height) := by
    rw [hw4, hh4]
    norm_num
  have h4base : MSDFGenerator.generateMTSDF envA stateA 32 2 0 =
      .ok (MSDFGenerator.readResult stateA
        (msdf_core.generateOneMTSDF envA (stateA.fontBuffer.take stateA.fontLen) 32 2 0) 4) := by
    simp only [MSDFGenerator.generateMTSDF, MSDFGenerator.runGenerate]
    rw [if_neg (by decide)]
  have h4eq := h4base.trans (congrArg Except.ok (readResult_good _ _ _ hs4 hgood4))
  have hok4 : ∃ g s', MSDFGenerator.generateMTSDF envA stateA 32 2 0 = .ok (some g, s') :=
    ⟨_, _, h4eq⟩
  obtain ⟨g3, s3, h3⟩ := hok3
  obtain ⟨g4, s4, h4⟩ := hok4
  refine ⟨channel_count.1 envA [7] 32 2 0 ?_ ?_,
    channel_count.2.1 envA [7] 32 2 0 ?_ ?_,
    ⟨g3, s3, h3, channel_count.2.2.1 envA stateA 32 2 0 g3 s3 h3⟩,
    ⟨g4, s4, h4, channel_count.2.2.2 envA stateA 32 2 0 g4 s4 h4⟩⟩
  · show (0 : ℤ) ≤ (msdf_core.generateCore envA [7] 32 2 0 [] false).width
    rw [(hwm false).1]; norm_num
  · show (0 : ℤ) ≤ (msdf_core.generateCore envA [7] 32 2 0 [] false).height
    rw [(hwm false).2]; norm_num
  · show (0 : ℤ) ≤ (msdf_core.generateCore envA [7] 32 2 0 [] true).width
    rw [(hwm true).1]; norm_num
  · show (0 : ℤ) ≤ (msdf_core.generateCore envA [7] 32 2 0 [] true).height
    rw [(hwm true).2]; norm_num

/-- C5 counterexample: `setVariationAxes` does not silently ignore an
invalid (non-4-character) tag — it throws, so "applying the axes … never
fails" is false as stated at the TypeScript interface. -/
theorem variation_axes_counterexample :
    MSDFGenerator.setVariationAxes initState [("wx", 400)] =
      .error "Axis tag must be 4 characters: \"wx\"" := rfl

/-- C5 (amended): a tag whose length is not 4 makes `setVariationAxes`
throw; tags of exactly 4 characters are accepted, and among them the core
silently skips every tag that is not one of the five standard OpenType
axis tags (the font's own axis name table is never consulted);
`applyVariationAxes` returns the count of axes successfully applied; and
axis application never affects the success of a generation call. -/
theorem variation_axes_amended :
    (∀ (s : GenState) (axes : List (String × ℚ)),
        (∀ a ∈ axes, a.1.length = 4) →
        ∃ s', MSDFGenerator.setVariationAxes s axes = .ok s') ∧
    (∀ (f : FontSpec) (axes : List VariationAxis),
        (msdf_core.applyVariationAxes f axes).1 =
          (axes.filter (appliedOk f)).length) ∧
    (∀ (f : FontSpec) (t : String) (v : ℚ) (axes : List VariationAxis),
        msdf_core.tagToName t = none →
        msdf_core.applyVariationAxes f (⟨t, v⟩ :: axes) =
          msdf_core.applyVariationAxes f axes) ∧
    (∀ (env : Env) (bytes : List ℕ) (c : ℕ) (fs pr : ℚ)
        (axes : List VariationAxis),
        (msdf_core.generateOneVar env bytes c fs pr axes).success =
          (msdf_core.generateOne env bytes c fs pr).success) := by
  refine ⟨?_, msdf_core.applyVariationAxes_count, ?_, ?_⟩
  · intro s axes hall
    exact setVariationAxesLoop_ok axes _ hall
  · intro f t v axes h
    simp [msdf_core.applyVariationAxes, h]
  · intro env bytes c fs pr axes
    simp only [msdf_core.generateOneVar, msdf_core.generateOne, msdf_core.generateCore]
    by_cases hft : env.ftInitOk = false
    · rw [if_pos hft, if_pos hft]
    · rw [if_neg hft, if_neg hft]
      cases hdec : env.decode bytes with
      | none => rfl
      | some font =>
          cases hcond : (font.glyphIndexOk c && font.glyphIndex c != 0
              && font.outlineOk c) with
          | false => simp [msdf_core.loadGlyph, hcond]
          | true => simp [msdf_core.loadGlyph, hcond, msdf_core.packResult]

/-- Witness for the amended C5: a weight axis is accepted; the count for
`[wght, CASL]` matches the applied-axis filter (only `wght` counts); the
unknown custom tag "CASL" is skipped even though `fontA`'s own name table
could resolve it; and variational generation succeeds exactly when plain
generation does. -/
theorem variation_axes_amended_witness :
    (∃ s', MSDFGenerator.setVariationAxes initState [("wght", 700)] = .ok s') ∧
    (msdf_core.applyVariationAxes fontA [⟨"wght", 700⟩, ⟨"CASL", 1⟩]).1 =
      ([⟨"wght", 700⟩, ⟨"CASL", 1⟩].filter (appliedOk fontA)).length ∧
    msdf_core.applyVariationAxes fontA [⟨"CASL", 1⟩] =
      msdf_core.applyVariationAxes fontA [] ∧
    (msdf_core.generateOneVar envA [7] 65 2 4 [⟨"wght", 700⟩]).success =
      (msdf_core.generateOne envA [7] 65 2 4).success :=
  ⟨variation_axes_amended.1 initState [("wght", 700)] (by decide),
    variation_axes_amended.2.1 fontA [⟨"wght", 700⟩, ⟨"CASL", 1⟩],
    variation_axes_amended.2.2.1 fontA "CASL" 1 [] rfl,
    variation_axes_amended.2.2.2 envA [7] 65 2 4 [⟨"wght", 700⟩]⟩

/-- C6: generation is deterministic and idempotent — with the same font
bytes, codepoint, font size and pixel range, and no intervening
variation-axis change, a second generation call on the resulting state
returns exactly the same glyph (byte-identical pixels and metrics), even
though the scratch pixel buffer mutates between calls; the edge coloring,
modelled as a pure function of shape and threshold, cannot vary. -/
theorem generate_idempotent (env : Env) (s : GenState) (c : ℕ) (fs pr : ℚ) :
    Except.map Prod.fst (MSDFGenerator.generate env s c fs pr) =
      Except.map Prod.fst
        (match MSDFGenerator.generate env s c fs pr with
          | .ok (_, s₁) => MSDFGenerator.generate env s₁ c fs pr
          | .error e => .error e) ∧
    Except.map Prod.fst (MSDFGenerator.generateMTSDF env s c fs pr) =
      Except.map Prod.fst
        (match MSDFGenerator.generateMTSDF env s c fs pr with
          | .ok (_, s₁) => MSDFGenerator.generateMTSDF env s₁ c fs pr
          | .error e => .error e) := by
  constructor
  · exact runGenerate_repeat s (fun fb => msdf_core.generateOne env fb c fs pr) 3
      (fun bytes => by
        simpa using msdf_core.generateCore_pixels_length_ge env bytes c fs pr [] false)
  · exact runGenerate_repeat s (fun fb => msdf_core.generateOneMTSDF env fb c fs pr) 4
      (fun bytes => by
        simpa using msdf_core.generateCore_pixels_length_ge env bytes c fs pr [] true)

/-- C7: for every fixed font, codepoint and distance range, and for every
pair of font sizes `fs₁ ≤ fs₂`, the output width and height at `fs₂` are
greater than or equal to those at `fs₁`: increasing `fontSize` never
decreases the bitmap dimensions. -/
theorem size_monotone (env : Env) (bytes : List ℕ) (c : ℕ)
    (pr fs₁ fs₂ : ℚ) (font : FontSpec)
    (hdec : env.decode bytes = some font) (hem : 0 < font.emSize)
    (hfs : fs₁ ≤ fs₂)
    (hsucc : (msdf_core.generateOne env bytes c fs₁ pr).success = true) :
    (msdf_core.generateOne env bytes c fs₁ pr).width
        ≤ (msdf_core.generateOne env bytes c fs₂ pr).width ∧
      (msdf_core.generateOne env bytes c fs₁ pr).height
        ≤ (msdf_core.generateOne env bytes c fs₂ pr).height := by
  obtain ⟨hft, font', sh, adv, hdec', hload⟩ :=
    msdf_core.generateCore_success_inv env bytes c fs₁ pr [] false hsucc
  rw [hdec] at hdec'
  injection hdec' with hfont
  rw [← hfont] at hload
  have heq1 := msdf_core.generateCore_success_eq env bytes c fs₁ pr [] false
    font sh adv hft hdec hload
  have heq2 := msdf_core.generateCore_success_eq env bytes c fs₂ pr [] false
    font sh adv hft hdec hload
  unfold msdf_core.generateOne
  rw [heq1, heq2]
  exact msdf_core.packResult_dims_mono env font sh adv pr fs₁ fs₂ false hem hfs

/-- Witness for C7: `fontA` codepoint 65 at font sizes 2 and 4 (range 0). -/
theorem size_monotone_witness :
    (msdf_core.generateOne envA [7] 65 2 0).width
        ≤ (msdf_core.generateOne envA [7] 65 4 0).width ∧
      (msdf_core.generateOne envA [7] 65 2 0).height
        ≤ (msdf_core.generateOne envA [7] 65 4 0).height :=
  size_monotone envA [7] 65 0 2 4 fontA rfl (by norm_num [fontA]) (by norm_num) rfl

theorem readResult_bad (s : GenState) (res : msdf_core.GlyphResult) (ch : ℕ)
    (hs : res.success = true) (hbad : badDims res.width res.height) :
    MSDFGenerator.readResult s res ch = (none, MSDFGenerator.writePixels s res.pixels) := by
  have hbad' : res.width ≤ 0 ∨ res.height ≤ 0 ∨ 4096 < res.width ∨ 4096 < res.height := hbad
  simp only [MSDFGenerator.readResult]
  rw [hs, if_neg (by simp), if_pos hbad']

/-- C9: at the public TypeScript interface, `generate`, `generateMTSDF`,
`generateVar` and `generateMTSDFVar` return `null` whenever the computed
bitmap width or height lies outside `(0, 4096]`, even when the core
generation reported success: the 4096×4096 bound is enforced inside the
wrapper. -/
theorem dimension_guard (env : Env) (s : GenState) (c : ℕ) (fs pr : ℚ)
    (hl : s.fontLoaded = true) :
    ((msdf_core.generateOne env (s.fontBuffer.take s.fontLen) c fs pr).success = true →
      badDims (msdf_core.generateOne env (s.fontBuffer.take s.fontLen) c fs pr).width
        (msdf_core.generateOne env (s.fontBuffer.take s.fontLen) c fs pr).height →
      Except.map Prod.fst (MSDFGenerator.generate env s c fs pr) = .ok none) ∧
    ((msdf_core.generateOneMTSDF env (s.fontBuffer.take s.fontLen) c fs pr).success = true →
      badDims (msdf_core.generateOneMTSDF env (s.fontBuffer.take s.fontLen) c fs pr).width
        (msdf_core.generateOneMTSDF env (s.fontBuffer.take s.fontLen) c fs pr).height →
      Except.map Prod.fst (MSDFGenerator.generateMTSDF env s c fs pr) = .ok none) ∧
    ((msdf_core.generateOneVar env (s.fontBuffer.take s.fontLen) c fs pr s.axesBuffer).success = true →
      badDims (msdf_core.generateOneVar env (s.fontBuffer.take s.fontLen) c fs pr s.axesBuffer).width
        (msdf_core.generateOneVar env (s.fontBuffer.take s.fontLen) c fs pr s.axesBuffer).height →
      Except.map Prod.fst (MSDFGenerator.generateVar env s c fs pr) = .ok none) ∧
    ((msdf_core.generateOneMTSDFVar env (s.fontBuffer.take s.fontLen) c fs pr s.axesBuffer).success = true →
      badDims (msdf_core.generateOneMTSDFVar env (s.fontBuffer.take s.fontLen) c fs pr s.axesBuffer).width
        (msdf_core.generateOneMTSDFVar env (s.fontBuffer.take s.fontLen) c fs pr s.axesBuffer).height →
      Except.map Prod.fst (MSDFGenerator.generateMTSDFVar env s c fs pr) = .ok none) := by
  refine ⟨fun hs hbad => ?_, fun hs hbad => ?_, fun hs hbad => ?_, fun hs hbad => ?_⟩ <;>
  · first
    | (simp only [MSDFGenerator.generate, MSDFGenerator.runGenerate, hl]
       rw [if_neg (by simp), readResult_bad _ _ _ hs hbad]; rfl)
    | (simp only [MSDFGenerator.generateMTSDF, MSDFGenerator.runGenerate, hl]
       rw [if_neg (by simp), readResult_bad _ _ _ hs hbad]; rfl)
    | (simp only [MSDFGenerator.generateVar, MSDFGenerator.runGenerate, hl]
       rw [if_neg (by simp), readResult_bad _ _ _ hs hbad]; rfl)
    | (simp only [MSDFGenerator.generateMTSDFVar, MSDFGenerator.runGenerate, hl]
       rw [if_neg (by simp), readResult_bad _ _ _ hs hbad]; rfl)

/-- Witness for C9: `fontA` codepoint 66 at `fontSize = 2`,
`pixelRange = -2` succeeds in the core with `width = -1 ≤ 0`, and all four
wrapper methods return `null`. -/
theorem dimension_guard_witness :
    Except.map Prod.fst (MSDFGenerator.generate envA stateA 66 2 (-2)) = .ok none ∧
      Except.map Prod.fst (MSDFGenerator.generateMTSDF envA stateA 66 2 (-2)) = .ok none ∧
      Except.map Prod.fst (MSDFGenerator.generateVar envA stateA 66 2 (-2)) = .ok none ∧
      Except.map Prod.fst (MSDFGenerator.generateMTSDFVar envA stateA 66 2 (-2)) = .ok none := by
  have hw : ∀ m : Bool, (msdf_core.generateCore envA [7] 66 2 (-2) [] m).width = -1 := by
    intro m
    have heq := msdf_core.generateCore_success_eq envA [7] 66 2 (-2) [] m
      fontA shapeTall 10 rfl rfl (by simp [msdf_core.loadGlyph, fontA])
    rw [heq]
    norm_num [msdf_core.packResult, msdf_core.frameOf, msdf_core.fixBounds,
      envA, fontA, shapeTall]
    have hcast : ((-1 : ℚ)) = ((-1 : ℤ) : ℚ) := by norm_num
    rw [hcast, Int.ceil_intCast]
  have hg := dimension_guard envA stateA 66 2 (-2) rfl
  refine ⟨hg.1 rfl (Or.inl ?_), hg.2.1 rfl (Or.inl ?_),
    hg.2.2.1 rfl (Or.inl ?_), hg.2.2.2 rfl (Or.inl ?_)⟩ <;>
  · show (msdf_core.generateCore envA [7] 66 2 (-2) [] _).width ≤ 0
    rw [hw]
    norm_num

/-- C10: every public query or generation method of `MSDFGenerator`
(`hasGlyph`, `generate`, `generateMTSDF`, `generateVar`,
`generateMTSDFVar`) throws the error "Font not loaded" when called before
`loadFont` has been invoked on the instance. -/
theorem font_not_loaded_throws (env : Env) (s : GenState) (c : ℕ)
    (fs pr : ℚ) (h : s.fontLoaded = false) :
    MSDFGenerator.hasGlyph env s c = .error "Font not loaded" ∧
      MSDFGenerator.generate env s c fs pr = .error "Font not loaded" ∧
      MSDFGenerator.generateMTSDF env s c fs pr = .error "Font not loaded" ∧
      MSDFGenerator.generateVar env s c fs pr = .error "Font not loaded" ∧
      MSDFGenerator.generateMTSDFVar env s c fs pr = .error "Font not loaded" := by
  refine ⟨?_, ?_, ?_, ?_, ?_⟩ <;>
    simp [MSDFGenerator.hasGlyph, MSDFGenerator.generate,
      MSDFGenerator.generateMTSDF, MSDFGenerator.generateVar,
      MSDFGenerator.generateMTSDFVar, MSDFGenerator.runGenerate, h]

/-- Witness for C10 at the freshly constructed generator state. -/
theorem font_not_loaded_throws_witness :
    MSDFGenerator.hasGlyph envA initState 65 = .error "Font not loaded" ∧
      MSDFGenerator.generate envA initState 65 2 4 = .error "Font not loaded" ∧
      MSDFGenerator.generateMTSDF envA initState 65 2 4 = .error "Font not loaded" ∧
      MSDFGenerator.generateVar envA initState 65 2 4 = .error "Font not loaded" ∧
      MSDFGenerator.generateMTSDFVar envA initState 65 2 4 = .error "Font not loaded" :=
  font_not_loaded_throws envA initState 65 2 4 rfl

end LibMSDF
